import Mathlib

/-!
Shallow embedding of the PURReaderControl repository (purreader/message.py and
purreader/reader.py).  Bytes are modelled as natural numbers (a Python `bytes`
object guarantees each element is < 256); byte strings are `List Nat`.
Python exceptions are modelled by the `PyErr` error type and fallible
functions return `Except PyErr _`.
-/

/-- Python exceptions raised by the embedded code.
`syntaxErr` and `valueErr` carry the message string of the corresponding
`SyntaxError` / `ValueError` in the source; `indexErr` models an
`IndexError` from indexing an empty bytes object; `structErr` models a
`struct.error` from `struct.unpack` receiving too few bytes;
`ioCountErr collected expected` models the `IOError` raised by
`PURReader.parseTagreports` with message
"Only packets for {collected} out of {expected} tags where received";
`checkErr code descr` models the `IOError` raised by `PURReader.checkResp`
carrying the return code description. -/
inductive PyErr where
  | syntaxErr (msg : String)
  | valueErr (msg : String)
  | indexErr
  | structErr
  | ioCountErr (collected expected : Nat)
  | checkErr (code : Nat) (descr : String)
deriving DecidableEq, Repr

/-- PURPacket.calcChecksum: starts from the first byte and XORs all remaining
bytes onto it.  The source indexes `msgBytes[0]`, so it is only ever applied
to non-empty byte strings; the `[]` case is given the neutral value 0. -/
def calcChecksum : List Nat → Nat
  | [] => 0
  | b :: rest => rest.foldl (fun s x => s ^^^ x) b

/-- PURPacket.createMsg: builds `b'RFE' + 0x01 + cmd + 0x02 + len + (0x03 +
payload if non-empty) + 0x04 + checksum`.  The source writes the length with
`bytes([len(pldBytes)])`, which raises `ValueError` for payloads longer than
255 bytes; that failure is modelled by returning `none`. -/
def createMsg (cmdBytes pldBytes : List Nat) : Option (List Nat) :=
  if pldBytes.length > 255 then none
  else
    let msg : List Nat :=
      [0x52, 0x46, 0x45] ++ [0x01] ++ cmdBytes ++ [0x02] ++ [pldBytes.length]
        ++ (if pldBytes.isEmpty then [] else 0x03 :: pldBytes) ++ [0x04]
    some (msg ++ [calcChecksum msg])

/-- PURPacket.parseMsg: validates length, checksum, start marker, length
marker and (for positive declared length) payload marker, then returns the
command bytes and the (up to) `payloadLen` payload bytes.  The branch
`.error .indexErr` mirrors the `IndexError` Python raises when
`msgBytes[0]` is evaluated on an empty remainder. -/
def parseMsg (msgBytes : List Nat) : Except PyErr (List Nat × List Nat) :=
  if msgBytes.length < 8 then .error (.syntaxErr "Message too short")
  else if calcChecksum msgBytes ≠ 0 then .error (.valueErr "Wrong checksum")
  else if msgBytes.take 4 ≠ [0x52, 0x46, 0x45, 0x01] then
    .error (.syntaxErr "Wrong message start")
  else
    let rest1 := msgBytes.drop 4
    let cmdBytes := rest1.take 2
    match rest1.drop 2 with
    | [] => .error .indexErr
    | m :: rest2 =>
      if m ≠ 0x02 then .error (.syntaxErr "Wrong payload length start")
      else
        match rest2 with
        | [] => .error .indexErr
        | payloadLen :: rest3 =>
          if payloadLen > 0 then
            match rest3 with
            | [] => .error .indexErr
            | p :: rest4 =>
              if p ≠ 0x03 then .error (.syntaxErr "Wrong payload start")
              else .ok (cmdBytes, rest4.take payloadLen)
          else .ok (cmdBytes, [])

/-- The `retCodeDescr` dictionary from message.py, as a partial map from a
return code byte to its description. -/
def retCodeDescr (code : Nat) : Option String :=
  if code = 0x00 then some "Everything went fine."
  else if code = 0x01 then some "The operation is pending, the result will be sent later on."
  else if code = 0x50 then some "Operation is not supported on this reader."
  else if code = 0x51 then some "Unkown error."
  else if code = 0x52 then some "The operation could not be executed."
  else if code = 0x53 then some "The reader could not write the value."
  else if code = 0x54 then some "The function was called with the wrong parameter count."
  else if code = 0x55 then some "The function was called with the wrong parameter."
  else if code = 0xA0 then some "The reader could not reach the tag."
  else if code = 0xA1 then some "The specified memory space is not valid."
  else if code = 0xA2 then some "The specified memory space is locked."
  else if code = 0xA3 then some "The tag has too less power."
  else if code = 0xA4 then some "The specified password is wrong."
  else none

/-- PURReader.checkResp on a response payload: if the payload is non-empty,
its first byte is non-zero and present in `retCodeDescr`, an `IOError`
carrying the description is raised; otherwise nothing happens. -/
def checkResp (pldBytes : List Nat) : Except PyErr Unit :=
  match pldBytes with
  | [] => .ok ()
  | code :: _ =>
    if code ≠ 0 then
      match retCodeDescr code with
      | some d => .error (.checkErr code d)
      | none => .ok ()
    else .ok ()

/-- The return-code gating step of PURReader.send (lines 49-51): `checkResp`
is applied to a response payload only when `check` was requested. -/
def checkGate (check : Bool) (pldBytes : List Nat) : Except PyErr Unit :=
  if check then checkResp pldBytes else .ok ()

/-- The payload-extraction step of PURReader.getParam on the response
payload: `size = resp.pldBytes[1]; return resp.pldBytes[2:2+size]`.
Indexing `pldBytes[1]` on a payload shorter than 2 bytes raises
`IndexError`; the slice silently yields fewer than `size` bytes when the
payload is short. -/
def getParamExtract (pldBytes : List Nat) : Except PyErr (List Nat) :=
  match pldBytes with
  | _ :: size :: rest => .ok (rest.take size)
  | _ => .error .indexErr

instance instDecEqExcept {ε α : Type} [DecidableEq ε] [DecidableEq α] :
    DecidableEq (Except ε α)
  | .ok a, .ok b => decidable_of_iff (a = b) (by simp)
  | .ok _, .error _ => .isFalse (fun habs => Except.noConfusion habs)
  | .error _, .ok _ => .isFalse (fun habs => Except.noConfusion habs)
  | .error e, .error f => decidable_of_iff (e = f) (by simp)

/- ### Checksum helper lemmas -/

lemma calcChecksum_eq_foldl (l : List Nat) :
    calcChecksum l = l.foldl (fun s x => s ^^^ x) 0 := by
  cases l with
  | nil => rfl
  | cons b rest => simp [calcChecksum, List.foldl_cons, Nat.zero_xor]

lemma calcChecksum_append_self (l : List Nat) :
    calcChecksum (l ++ [calcChecksum l]) = 0 := by
  rw [calcChecksum_eq_foldl, List.foldl_append]
  simp [← calcChecksum_eq_foldl, Nat.xor_self]

/- ### Shape of parseMsg on a frame with a well-formed header -/

lemma parseMsg_shape (c1 c2 payloadLen : Nat) (tail : List Nat)
    (hchk : calcChecksum
      (0x52 :: 0x46 :: 0x45 :: 0x01 :: c1 :: c2 :: 0x02 :: payloadLen :: tail) = 0) :
    parseMsg (0x52 :: 0x46 :: 0x45 :: 0x01 :: c1 :: c2 :: 0x02 :: payloadLen :: tail)
      = if payloadLen > 0 then
          match tail with
          | [] => .error .indexErr
          | p :: rest =>
            if p ≠ 0x03 then .error (.syntaxErr "Wrong payload start")
            else .ok ([c1, c2], rest.take payloadLen)
        else .ok ([c1, c2], []) := by
  have h3 : ¬ (List.take 4 (0x52 :: 0x46 :: 0x45 :: 0x01 :: c1 :: c2 :: 0x02 ::
      payloadLen :: tail) ≠ ([0x52, 0x46, 0x45, 0x01] : List Nat)) := fun hn => hn rfl
  unfold parseMsg
  rw [if_neg (by simp only [List.length_cons]; omega), if_neg (by simp [hchk]), if_neg h3]
  cases tail with
  | nil => rfl
  | cons p rest => rfl

/-- C1: Round-trip.  For every 2-byte command and payload of 0 to 255 bytes,
decoding the frame produced by createMsg returns exactly the original
command and payload. -/
theorem parse_createMsg_roundtrip (cmd pld frame : List Nat)
    (hcmd : cmd.length = 2) (hpld : pld.length ≤ 255)
    (hcb : ∀ b ∈ cmd, b < 256) (hpb : ∀ b ∈ pld, b < 256)
    (hframe : createMsg cmd pld = some frame) :
    parseMsg frame = .ok (cmd, pld) := by
  obtain ⟨c1, c2, rfl⟩ : ∃ c1 c2, cmd = [c1, c2] := by
    rcases cmd with _ | ⟨c1, _ | ⟨c2, _ | ⟨c3, t⟩⟩⟩
    · simp at hcmd
    · simp at hcmd
    · exact ⟨c1, c2, rfl⟩
    · simp at hcmd
  rcases pld with _ | ⟨p, ps⟩
  · have he0 : createMsg [c1, c2] [] =
        some (0x52 :: 0x46 :: 0x45 :: 0x01 :: c1 :: c2 :: 0x02 :: 0 ::
          [0x04, calcChecksum [0x52, 0x46, 0x45, 0x01, c1, c2, 0x02, 0, 0x04]]) := rfl
    rw [he0] at hframe
    obtain rfl := (Option.some.inj hframe).symm
    have hchk : calcChecksum (0x52 :: 0x46 :: 0x45 :: 0x01 :: c1 :: c2 :: 0x02 :: 0 ::
        [0x04, calcChecksum [0x52, 0x46, 0x45, 0x01, c1, c2, 0x02, 0, 0x04]]) = 0 :=
      calcChecksum_append_self [0x52, 0x46, 0x45, 0x01, c1, c2, 0x02, 0, 0x04]
    rw [parseMsg_shape c1 c2 0 _ hchk]
    rfl
  · have he0 : createMsg [c1, c2] (p :: ps) =
        some (0x52 :: 0x46 :: 0x45 :: 0x01 :: c1 :: c2 :: 0x02 :: (p :: ps).length :: 0x03 ::
          p :: ((ps ++ [0x04]) ++
            [calcChecksum (0x52 :: 0x46 :: 0x45 :: 0x01 :: c1 :: c2 :: 0x02 ::
              (p :: ps).length :: 0x03 :: p :: (ps ++ [0x04]))])) := by
      simp only [createMsg]
      rw [if_neg (by omega)]
      rfl
    rw [he0] at hframe
    obtain rfl := (Option.some.inj hframe).symm
    have hchk : calcChecksum (0x52 :: 0x46 :: 0x45 :: 0x01 :: c1 :: c2 :: 0x02 ::
        (p :: ps).length :: (0x03 :: p :: ((ps ++ [0x04]) ++
          [calcChecksum (0x52 :: 0x46 :: 0x45 :: 0x01 :: c1 :: c2 :: 0x02 ::
            (p :: ps).length :: 0x03 :: p :: (ps ++ [0x04]))]))) = 0 :=
      calcChecksum_append_self
        (0x52 :: 0x46 :: 0x45 :: 0x01 :: c1 :: c2 :: 0x02 ::
          (p :: ps).length :: 0x03 :: p :: (ps ++ [0x04]))
    rw [parseMsg_shape c1 c2 ((p :: ps).length) _ hchk, if_pos (by simp)]
    simp [List.append_assoc, List.take_left]

/-- Witness for C1 at command 07 08 with payload AB. -/
theorem parse_createMsg_roundtrip_witness :
    parseMsg [0x52, 0x46, 0x45, 0x01, 0x07, 0x08, 0x02, 0x01, 0x03, 0xAB, 0x04, 0xF0]
      = .ok ([0x07, 0x08], [0xAB]) :=
  parse_createMsg_roundtrip [0x07, 0x08] [0xAB] _ rfl (by decide) (by decide) (by decide) rfl

/-- C8: createMsg emits the start marker, 0x01, the command bytes, 0x02, the
length byte, the payload section iff the payload is non-empty, then 0x04 and
a checksum byte making the XOR of the whole frame zero; concretely,
createMsg on command 01 01 with empty payload is
52 46 45 01 01 01 02 00 04 56. -/
theorem createMsg_spec :
    (∀ cmd pld frame, cmd.length = 2 → pld.length ≤ 255 →
      createMsg cmd pld = some frame →
        (∃ chk, frame
          = [0x52, 0x46, 0x45, 0x01] ++ cmd ++ [0x02, pld.length]
            ++ (if pld.isEmpty then [] else 0x03 :: pld) ++ [0x04, chk])
        ∧ frame.foldl (fun s x => s ^^^ x) 0 = 0)
    ∧ createMsg [0x01, 0x01] []
        = some [0x52, 0x46, 0x45, 0x01, 0x01, 0x01, 0x02, 0x00, 0x04, 0x56] := by
  constructor
  · intro cmd pld frame hcmd hpld hframe
    simp only [createMsg] at hframe
    rw [if_neg (by omega)] at hframe
    obtain rfl := (Option.some.inj hframe).symm
    constructor
    · refine ⟨calcChecksum (([0x52, 0x46, 0x45] ++ [0x01] ++ cmd ++ [0x02] ++ [pld.length]
        ++ (if pld.isEmpty then [] else 0x03 :: pld)) ++ [0x04]), ?_⟩
      simp [List.append_assoc]
    · rw [← calcChecksum_eq_foldl]
      exact calcChecksum_append_self _
  · rfl

/-- Witness for C8 at command 07 08 with payload AB. -/
theorem createMsg_spec_witness :
    (∃ chk, ([0x52, 0x46, 0x45, 0x01, 0x07, 0x08, 0x02, 0x01, 0x03, 0xAB, 0x04, 0xF0] : List Nat)
        = [0x52, 0x46, 0x45, 0x01] ++ [0x07, 0x08] ++ [0x02, ([0xAB] : List Nat).length]
          ++ (if ([0xAB] : List Nat).isEmpty then [] else 0x03 :: [0xAB]) ++ [0x04, chk])
      ∧ ([0x52, 0x46, 0x45, 0x01, 0x07, 0x08, 0x02, 0x01, 0x03, 0xAB, 0x04, 0xF0] : List Nat).foldl
          (fun s x => s ^^^ x) 0 = 0 :=
  createMsg_spec.1 [0x07, 0x08] [0xAB] _ rfl (by decide) rfl

/- ### Decomposition of inputs that pass the length check -/

lemma exists_cons8 (l : List Nat) (h : 8 ≤ l.length) :
    ∃ b0 b1 b2 b3 b4 b5 b6 b7 rest,
      l = b0 :: b1 :: b2 :: b3 :: b4 :: b5 :: b6 :: b7 :: rest := by
  rcases l with _|⟨b0,_|⟨b1,_|⟨b2,_|⟨b3,_|⟨b4,_|⟨b5,_|⟨b6,_|⟨b7,rest⟩⟩⟩⟩⟩⟩⟩⟩ <;> simp_all

lemma parseMsg_cons8 (b0 b1 b2 b3 b4 b5 b6 b7 : Nat) (rest : List Nat) :
    parseMsg (b0 :: b1 :: b2 :: b3 :: b4 :: b5 :: b6 :: b7 :: rest)
      = if calcChecksum (b0 :: b1 :: b2 :: b3 :: b4 :: b5 :: b6 :: b7 :: rest) ≠ 0 then
          .error (.valueErr "Wrong checksum")
        else if ([b0, b1, b2, b3] : List Nat) ≠ [0x52, 0x46, 0x45, 0x01] then
          .error (.syntaxErr "Wrong message start")
        else if b6 ≠ 0x02 then .error (.syntaxErr "Wrong payload length start")
        else if b7 > 0 then
          match rest with
          | [] => .error .indexErr
          | p :: rest4 =>
            if p ≠ 0x03 then .error (.syntaxErr "Wrong payload start")
            else .ok ([b4, b5], rest4.take b7)
        else .ok ([b4, b5], []) := by
  unfold parseMsg
  rw [if_neg (show ¬ ((b0 :: b1 :: b2 :: b3 :: b4 :: b5 :: b6 :: b7 :: rest).length < 8) by
    simp only [List.length_cons]; omega)]
  by_cases hc : calcChecksum (b0 :: b1 :: b2 :: b3 :: b4 :: b5 :: b6 :: b7 :: rest) ≠ 0
  · rw [if_pos hc, if_pos hc]
  · rw [if_neg hc, if_neg hc]
    by_cases hs : List.take 4 (b0 :: b1 :: b2 :: b3 :: b4 :: b5 :: b6 :: b7 :: rest)
        ≠ ([0x52, 0x46, 0x45, 0x01] : List Nat)
    · rw [if_pos hs, if_pos (show ([b0, b1, b2, b3] : List Nat) ≠ [0x52, 0x46, 0x45, 0x01] from hs)]
    · rw [if_neg hs,
        if_neg (show ¬ (([b0, b1, b2, b3] : List Nat) ≠ [0x52, 0x46, 0x45, 0x01]) from hs)]
      cases rest with
      | nil => rfl
      | cons p r => rfl

/-- C9: Fail-fast validation order of parseMsg: inputs shorter than 8 bytes
fail with the too-short error regardless of content; long-enough inputs with
bad checksum fail with the checksum error even when the start marker is also
wrong; the start-marker check precedes the length-marker check, which
precedes the payload-marker check. -/
theorem parseMsg_failfast_order :
    (∀ l : List Nat, l.length < 8 → parseMsg l = .error (.syntaxErr "Message too short"))
    ∧ (∀ l : List Nat, 8 ≤ l.length → calcChecksum l ≠ 0 →
        parseMsg l = .error (.valueErr "Wrong checksum"))
    ∧ (∀ l : List Nat, 8 ≤ l.length → calcChecksum l = 0 →
        l.take 4 ≠ [0x52, 0x46, 0x45, 0x01] →
        parseMsg l = .error (.syntaxErr "Wrong message start"))
    ∧ (∀ l : List Nat, 8 ≤ l.length → calcChecksum l = 0 →
        l.take 4 = [0x52, 0x46, 0x45, 0x01] → l.getD 6 0 ≠ 0x02 →
        parseMsg l = .error (.syntaxErr "Wrong payload length start"))
    ∧ (∀ l : List Nat, 8 ≤ l.length → calcChecksum l = 0 →
        l.take 4 = [0x52, 0x46, 0x45, 0x01] → l.getD 6 0 = 0x02 → 0 < l.getD 7 0 →
        l.getD 8 0 ≠ 0x03 → 9 ≤ l.length →
        parseMsg l = .error (.syntaxErr "Wrong payload start")) := by
  refine ⟨?_, ?_, ?_, ?_, ?_⟩
  · intro l hlen
    unfold parseMsg
    rw [if_pos hlen]
  · intro l hlen hchk
    obtain ⟨b0, b1, b2, b3, b4, b5, b6, b7, rest, rfl⟩ := exists_cons8 l hlen
    rw [parseMsg_cons8, if_pos hchk]
  · intro l hlen hchk hstart
    obtain ⟨b0, b1, b2, b3, b4, b5, b6, b7, rest, rfl⟩ := exists_cons8 l hlen
    rw [parseMsg_cons8, if_neg (fun hn => hn hchk),
      if_pos (show ([b0, b1, b2, b3] : List Nat) ≠ [0x52, 0x46, 0x45, 0x01] from hstart)]
  · intro l hlen hchk hstart h6
    obtain ⟨b0, b1, b2, b3, b4, b5, b6, b7, rest, rfl⟩ := exists_cons8 l hlen
    rw [parseMsg_cons8, if_neg (fun hn => hn hchk),
      if_neg (show ¬ (([b0, b1, b2, b3] : List Nat) ≠ [0x52, 0x46, 0x45, 0x01]) from
        fun hn => hn hstart),
      if_pos (show b6 ≠ 0x02 from h6)]
  · intro l hlen hchk hstart h6 h7 h8 hlen9
    obtain ⟨b0, b1, b2, b3, b4, b5, b6, b7, rest, rfl⟩ := exists_cons8 l hlen
    rw [parseMsg_cons8, if_neg (fun hn => hn hchk),
      if_neg (show ¬ (([b0, b1, b2, b3] : List Nat) ≠ [0x52, 0x46, 0x45, 0x01]) from
        fun hn => hn hstart),
      if_neg (show ¬ (b6 ≠ 0x02) from fun hn => hn h6),
      if_pos (show b7 > 0 from h7)]
    cases rest with
    | nil => simp only [List.length_cons, List.length_nil] at hlen9; omega
    | cons p r =>
      exact if_pos (show p ≠ 0x03 from h8)

/-- Witness for C9: concrete inputs triggering each of the five ordered
failures. -/
theorem parseMsg_failfast_order_witness :
    parseMsg [0] = .error (.syntaxErr "Message too short")
    ∧ parseMsg [1, 1, 1, 1, 1, 1, 1, 0] = .error (.valueErr "Wrong checksum")
    ∧ parseMsg [1, 1, 1, 1, 1, 1, 1, 1] = .error (.syntaxErr "Wrong message start")
    ∧ parseMsg [0x52, 0x46, 0x45, 0x01, 0, 0, 5, 0x55]
        = .error (.syntaxErr "Wrong payload length start")
    ∧ parseMsg [0x52, 0x46, 0x45, 0x01, 0, 0, 2, 1, 0, 0x53]
        = .error (.syntaxErr "Wrong payload start") :=
  ⟨parseMsg_failfast_order.1 [0] (by decide),
   parseMsg_failfast_order.2.1 [1, 1, 1, 1, 1, 1, 1, 0] (by decide) (by decide),
   parseMsg_failfast_order.2.2.1 [1, 1, 1, 1, 1, 1, 1, 1] (by decide) (by decide) (by decide),
   parseMsg_failfast_order.2.2.2.1 [0x52, 0x46, 0x45, 0x01, 0, 0, 5, 0x55]
     (by decide) (by decide) (by decide) (by decide),
   parseMsg_failfast_order.2.2.2.2 [0x52, 0x46, 0x45, 0x01, 0, 0, 2, 1, 0, 0x53]
     (by decide) (by decide) (by decide) (by decide) (by decide) (by decide) (by decide)⟩

lemma parseMsg_cons8_nil (b0 b1 b2 b3 b4 b5 b6 b7 : Nat) :
    parseMsg [b0, b1, b2, b3, b4, b5, b6, b7]
      = if calcChecksum [b0, b1, b2, b3, b4, b5, b6, b7] ≠ 0 then
          .error (.valueErr "Wrong checksum")
        else if ([b0, b1, b2, b3] : List Nat) ≠ [0x52, 0x46, 0x45, 0x01] then
          .error (.syntaxErr "Wrong message start")
        else if b6 ≠ 0x02 then .error (.syntaxErr "Wrong payload length start")
        else if b7 > 0 then .error .indexErr
        else .ok ([b4, b5], []) :=
  parseMsg_cons8 b0 b1 b2 b3 b4 b5 b6 b7 []

lemma parseMsg_cons9 (b0 b1 b2 b3 b4 b5 b6 b7 p : Nat) (r : List Nat) :
    parseMsg (b0 :: b1 :: b2 :: b3 :: b4 :: b5 :: b6 :: b7 :: p :: r)
      = if calcChecksum (b0 :: b1 :: b2 :: b3 :: b4 :: b5 :: b6 :: b7 :: p :: r) ≠ 0 then
          .error (.valueErr "Wrong checksum")
        else if ([b0, b1, b2, b3] : List Nat) ≠ [0x52, 0x46, 0x45, 0x01] then
          .error (.syntaxErr "Wrong message start")
        else if b6 ≠ 0x02 then .error (.syntaxErr "Wrong payload length start")
        else if b7 > 0 then
          if p ≠ 0x03 then .error (.syntaxErr "Wrong payload start")
          else .ok ([b4, b5], r.take b7)
        else .ok ([b4, b5], []) :=
  parseMsg_cons8 b0 b1 b2 b3 b4 b5 b6 b7 (p :: r)

/-- C6 (amended): every input either decodes to a pair or fails with one of
the five structural errors, except that an input of length exactly 8 that
passes the checksum, start-marker and length-marker checks while declaring a
positive payload length fails with an index-out-of-range error. -/
theorem parseMsg_totality (l : List Nat) :
    (∃ cp, parseMsg l = .ok cp)
    ∨ parseMsg l = .error (.syntaxErr "Message too short")
    ∨ parseMsg l = .error (.valueErr "Wrong checksum")
    ∨ parseMsg l = .error (.syntaxErr "Wrong message start")
    ∨ parseMsg l = .error (.syntaxErr "Wrong payload length start")
    ∨ parseMsg l = .error (.syntaxErr "Wrong payload start")
    ∨ (parseMsg l = .error .indexErr ∧ l.length = 8 ∧ 0 < l.getD 7 0) := by
  by_cases hlen : l.length < 8
  · refine Or.inr (Or.inl ?_)
    unfold parseMsg
    rw [if_pos hlen]
  · obtain ⟨b0, b1, b2, b3, b4, b5, b6, b7, rest, rfl⟩ := exists_cons8 l (by omega)
    cases rest with
    | nil =>
      rw [parseMsg_cons8_nil]
      by_cases hc : calcChecksum [b0, b1, b2, b3, b4, b5, b6, b7] ≠ 0
      · rw [if_pos hc]
        exact Or.inr (Or.inr (Or.inl rfl))
      · rw [if_neg hc]
        by_cases hs : ([b0, b1, b2, b3] : List Nat) ≠ [0x52, 0x46, 0x45, 0x01]
        · rw [if_pos hs]
          exact Or.inr (Or.inr (Or.inr (Or.inl rfl)))
        · rw [if_neg hs]
          by_cases h6 : b6 ≠ 0x02
          · rw [if_pos h6]
            exact Or.inr (Or.inr (Or.inr (Or.inr (Or.inl rfl))))
          · rw [if_neg h6]
            by_cases h7 : b7 > 0
            · rw [if_pos h7]
              exact Or.inr (Or.inr (Or.inr (Or.inr (Or.inr (Or.inr ⟨rfl, rfl, h7⟩)))))
            · rw [if_neg h7]
              exact Or.inl ⟨_, rfl⟩
    | cons p r =>
      rw [parseMsg_cons9]
      by_cases hc : calcChecksum (b0 :: b1 :: b2 :: b3 :: b4 :: b5 :: b6 :: b7 :: p :: r) ≠ 0
      · rw [if_pos hc]
        exact Or.inr (Or.inr (Or.inl rfl))
      · rw [if_neg hc]
        by_cases hs : ([b0, b1, b2, b3] : List Nat) ≠ [0x52, 0x46, 0x45, 0x01]
        · rw [if_pos hs]
          exact Or.inr (Or.inr (Or.inr (Or.inl rfl)))
        · rw [if_neg hs]
          by_cases h6 : b6 ≠ 0x02
          · rw [if_pos h6]
            exact Or.inr (Or.inr (Or.inr (Or.inr (Or.inl rfl))))
          · rw [if_neg h6]
            by_cases h7 : b7 > 0
            · rw [if_pos h7]
              by_cases hp : p ≠ 0x03
              · rw [if_pos hp]
                exact Or.inr (Or.inr (Or.inr (Or.inr (Or.inr (Or.inl rfl)))))
              · rw [if_neg hp]
                exact Or.inl ⟨_, rfl⟩
            · rw [if_neg h7]
              exact Or.inl ⟨_, rfl⟩

/-- Counterexample for C6 as stated: the 8-byte input 52 46 45 01 00 00 02 52
passes the checksum, start and length-marker checks, declares payload length
0x52 > 0, and then parseMsg fails with an index error, which is none of the
five listed decode errors. -/
theorem parseMsg_totality_counterexample :
    parseMsg [0x52, 0x46, 0x45, 0x01, 0x00, 0x00, 0x02, 0x52] = .error .indexErr
    ∧ PyErr.indexErr ≠ .syntaxErr "Message too short"
    ∧ PyErr.indexErr ≠ .valueErr "Wrong checksum"
    ∧ PyErr.indexErr ≠ .syntaxErr "Wrong message start"
    ∧ PyErr.indexErr ≠ .syntaxErr "Wrong payload length start"
    ∧ PyErr.indexErr ≠ .syntaxErr "Wrong payload start" :=
  ⟨rfl, by decide, by decide, by decide, by decide, by decide⟩

/-- C5 (amended): on every accepted input the command is bytes 4-5 and the
payload is the first `payload_len` bytes following the payload marker, where
`payload_len` is byte 7; the payload length is the minimum of the declared
length and the number of available bytes, and equals the declared length
exactly when enough bytes remain. -/
theorem parseMsg_payload_take (l cmd pld : List Nat)
    (h : parseMsg l = .ok (cmd, pld)) :
    cmd = (l.drop 4).take 2
    ∧ pld = (l.drop 9).take (l.getD 7 0)
    ∧ pld.length = min (l.getD 7 0) (l.length - 9)
    ∧ (l.getD 7 0 ≤ l.length - 9 → pld.length = l.getD 7 0) := by
  by_cases hlen : l.length < 8
  · exfalso
    unfold parseMsg at h
    rw [if_pos hlen] at h
    cases h
  · obtain ⟨b0, b1, b2, b3, b4, b5, b6, b7, rest, rfl⟩ := exists_cons8 l (by omega)
    cases rest with
    | nil =>
      rw [parseMsg_cons8_nil] at h
      by_cases hc : calcChecksum [b0, b1, b2, b3, b4, b5, b6, b7] ≠ 0
      · rw [if_pos hc] at h; cases h
      · rw [if_neg hc] at h
        by_cases hs : ([b0, b1, b2, b3] : List Nat) ≠ [0x52, 0x46, 0x45, 0x01]
        · rw [if_pos hs] at h; cases h
        · rw [if_neg hs] at h
          by_cases h6 : b6 ≠ 0x02
          · rw [if_pos h6] at h; cases h
          · rw [if_neg h6] at h
            by_cases h7 : b7 > 0
            · rw [if_pos h7] at h; cases h
            · rw [if_neg h7] at h
              obtain ⟨rfl, rfl⟩ : [b4, b5] = cmd ∧ ([] : List Nat) = pld := by
                cases h; exact ⟨rfl, rfl⟩
              have hb7 : b7 = 0 := by omega
              subst hb7
              exact ⟨rfl, rfl, by simp, fun _ => rfl⟩
    | cons p r =>
      rw [parseMsg_cons9] at h
      by_cases hc : calcChecksum (b0 :: b1 :: b2 :: b3 :: b4 :: b5 :: b6 :: b7 :: p :: r) ≠ 0
      · rw [if_pos hc] at h; cases h
      · rw [if_neg hc] at h
        by_cases hs : ([b0, b1, b2, b3] : List Nat) ≠ [0x52, 0x46, 0x45, 0x01]
        · rw [if_pos hs] at h; cases h
        · rw [if_neg hs] at h
          by_cases h6 : b6 ≠ 0x02
          · rw [if_pos h6] at h; cases h
          · rw [if_neg h6] at h
            by_cases h7 : b7 > 0
            · rw [if_pos h7] at h
              by_cases hp : p ≠ 0x03
              · rw [if_pos hp] at h; cases h
              · rw [if_neg hp] at h
                obtain ⟨rfl, rfl⟩ : [b4, b5] = cmd ∧ List.take b7 r = pld := by
                  cases h; exact ⟨rfl, rfl⟩
                refine ⟨rfl, rfl, ?_, ?_⟩
                · show (List.take b7 r).length = min b7 ((r.length + 9) - 9)
                  rw [List.length_take]
                  omega
                · intro hle
                  have hle2 : b7 ≤ (r.length + 9) - 9 := hle
                  show (List.take b7 r).length = b7
                  rw [List.length_take]
                  omega
            · rw [if_neg h7] at h
              obtain ⟨rfl, rfl⟩ : [b4, b5] = cmd ∧ ([] : List Nat) = pld := by
                cases h; exact ⟨rfl, rfl⟩
              have hb7 : b7 = 0 := by omega
              subst hb7
              exact ⟨rfl, rfl, by simp, fun _ => rfl⟩

/-- Counterexample for C5 as stated: an accepted 11-byte frame declaring
payload length 5 for which parseMsg returns only the 2 remaining bytes. -/
theorem parseMsg_payload_counterexample :
    parseMsg [0x52, 0x46, 0x45, 0x01, 0x00, 0x00, 0x02, 0x05, 0x03, 0x00, 0x54]
      = .ok ([0x00, 0x00], [0x00, 0x54])
    ∧ ([0x52, 0x46, 0x45, 0x01, 0x00, 0x00, 0x02, 0x05, 0x03, 0x00, 0x54] : List Nat).getD 7 0 = 5
    ∧ ([0x00, 0x54] : List Nat).length ≠ 5 :=
  ⟨rfl, rfl, by decide⟩

/-- Witness for C5 (amended) at an accepted frame with declared length 1 and
exactly 1 available payload byte. -/
theorem parseMsg_payload_take_witness :
    ([0x00, 0x00] : List Nat)
        = (([0x52, 0x46, 0x45, 0x01, 0x00, 0x00, 0x02, 0x01, 0x03, 0x07, 0x57] : List Nat).drop
            4).take 2
    ∧ ([0x07] : List Nat)
        = (([0x52, 0x46, 0x45, 0x01, 0x00, 0x00, 0x02, 0x01, 0x03, 0x07, 0x57] : List Nat).drop
            9).take
          (([0x52, 0x46, 0x45, 0x01, 0x00, 0x00, 0x02, 0x01, 0x03, 0x07, 0x57] : List Nat).getD 7 0)
    ∧ ([0x07] : List Nat).length
        = min (([0x52, 0x46, 0x45, 0x01, 0x00, 0x00, 0x02, 0x01, 0x03, 0x07, 0x57] :
            List Nat).getD 7 0)
          (([0x52, 0x46, 0x45, 0x01, 0x00, 0x00, 0x02, 0x01, 0x03, 0x07, 0x57] : List Nat).length
            - 9)
    ∧ (([0x52, 0x46, 0x45, 0x01, 0x00, 0x00, 0x02, 0x01, 0x03, 0x07, 0x57] : List Nat).getD 7 0
          ≤ ([0x52, 0x46, 0x45, 0x01, 0x00, 0x00, 0x02, 0x01, 0x03, 0x07, 0x57] :
            List Nat).length - 9 →
        ([0x07] : List Nat).length
          = ([0x52, 0x46, 0x45, 0x01, 0x00, 0x00, 0x02, 0x01, 0x03, 0x07, 0x57] :
            List Nat).getD 7 0) :=
  parseMsg_payload_take [0x52, 0x46, 0x45, 0x01, 0x00, 0x00, 0x02, 0x01, 0x03, 0x07, 0x57]
    [0x00, 0x00] [0x07] rfl

/-- C10: parseMsg accepts the 8-byte input 52 46 45 01 52 00 02 00, which
contains neither a payload-section marker nor a checksum-section marker,
decoding it to command bytes 52 00 with empty payload, although every frame
createMsg produces for a 2-byte command has at least 10 bytes. -/
theorem parseMsg_accepts_short_frames :
    parseMsg [0x52, 0x46, 0x45, 0x01, 0x52, 0x00, 0x02, 0x00] = .ok ([0x52, 0x00], [])
    ∧ ([0x52, 0x46, 0x45, 0x01, 0x52, 0x00, 0x02, 0x00] : List Nat).length = 8
    ∧ (0x03 : Nat) ∉ ([0x52, 0x46, 0x45, 0x01, 0x52, 0x00, 0x02, 0x00] : List Nat)
    ∧ (0x04 : Nat) ∉ ([0x52, 0x46, 0x45, 0x01, 0x52, 0x00, 0x02, 0x00] : List Nat)
    ∧ (∀ cmd pld frame, cmd.length = 2 → createMsg cmd pld = some frame →
        10 ≤ frame.length) := by
  refine ⟨rfl, rfl, by decide, by decide, ?_⟩
  intro cmd pld frame hcmd hframe
  simp only [createMsg] at hframe
  by_cases hbig : pld.length > 255
  · rw [if_pos hbig] at hframe
    cases hframe
  · rw [if_neg hbig] at hframe
    obtain rfl := (Option.some.inj hframe).symm
    simp only [List.length_append, List.length_cons, List.length_nil, hcmd]
    by_cases hemp : pld.isEmpty
    · rw [if_pos hemp]
      simp
    · rw [if_neg hemp]
      simp only [List.length_cons]
      omega

/-- Witness for C10: the universally quantified minimum-length part applied
to the concrete empty-payload frame for command 01 01. -/
theorem parseMsg_accepts_short_frames_witness :
    10 ≤ ([0x52, 0x46, 0x45, 0x01, 0x01, 0x01, 0x02, 0x00, 0x04, 0x56] : List Nat).length :=
  parseMsg_accepts_short_frames.2.2.2.2 [0x01, 0x01] []
    [0x52, 0x46, 0x45, 0x01, 0x01, 0x01, 0x02, 0x00, 0x04, 0x56] rfl rfl

/-- C4 (amended): on a get-parameter response payload [return-code][length
byte][value bytes], getParam returns the first `length` value bytes when
enough are present, and silently returns all remaining value bytes (never an
error) when fewer than `length` are present. -/
theorem getParam_takes_declared (rc size : Nat) (rest : List Nat) :
    getParamExtract (rc :: size :: rest) = .ok (rest.take size)
    ∧ (rest.take size).length = min size rest.length := by
  exact ⟨rfl, List.length_take size rest⟩

/-- Counterexample for C4 as stated: a payload declaring 5 value bytes but
holding only 2 makes getParam return the 2 bytes with no error, instead of
failing. -/
theorem getParam_truncation_counterexample :
    getParamExtract [0x00, 5, 1, 2] = .ok [1, 2]
    ∧ ([1, 2] : List Nat).length ≠ 5 :=
  ⟨rfl, by decide⟩

lemma retCodeDescr_eq_none (c : Nat) (h0 : c ≠ 0) (h1 : c ≠ 1)
    (h2 : ¬ (0x50 ≤ c ∧ c ≤ 0x55)) (h3 : ¬ (0xA0 ≤ c ∧ c ≤ 0xA4)) :
    retCodeDescr c = none := by
  unfold retCodeDescr
  repeat rw [if_neg (by omega)]

/-- C3 (amended): with checking requested, checkResp raises exactly for a
non-empty payload whose first byte is a non-zero catalogued code; the
non-zero catalogued codes are 0x01, 0x50-0x55 and 0xA0-0xA4; the raised
error carries the catalog description (for 0x52 it is "The operation could
not be executed."); without checking nothing is raised. -/
theorem checkGate_spec :
    (∀ pld : List Nat, checkGate false pld = .ok ())
    ∧ checkGate true [] = .ok ()
    ∧ (∀ (c : Nat) (rest : List Nat),
        checkGate true (c :: rest)
          = if h : c ≠ 0 ∧ (retCodeDescr c).isSome then
              .error (.checkErr c ((retCodeDescr c).get h.2))
            else .ok ())
    ∧ (∀ c : Nat, (c ≠ 0 ∧ (retCodeDescr c).isSome)
        ↔ (c = 0x01 ∨ (0x50 ≤ c ∧ c ≤ 0x55) ∨ (0xA0 ≤ c ∧ c ≤ 0xA4)))
    ∧ retCodeDescr 0x52 = some "The operation could not be executed." := by
  refine ⟨fun pld => rfl, rfl, ?_, ?_, rfl⟩
  · intro c rest
    by_cases hc : c = 0
    · subst hc
      simp [checkGate, checkResp]
    · cases hd : retCodeDescr c with
      | none => simp [checkGate, checkResp, hc, hd]
      | some d => simp [checkGate, checkResp, hc, hd]
  · intro c
    constructor
    · rintro ⟨hne, hsome⟩
      by_contra hcon
      push_neg at hcon
      rw [retCodeDescr_eq_none c hne hcon.1 (by omega) (by omega)] at hsome
      simp at hsome
    · intro hin
      refine ⟨by omega, ?_⟩
      rcases hin with rfl | ⟨ha, hb⟩ | ⟨ha, hb⟩
      · rfl
      · interval_cases c <;> rfl
      · interval_cases c <;> rfl

/-- Counterexample for C3 as stated: a response payload beginning with 0x01
raises under checking although 0x01 lies in neither documented error range. -/
theorem checkGate_counterexample :
    checkGate true [0x01]
      = .error (.checkErr 0x01 "The operation is pending, the result will be sent later on.")
    ∧ ¬ (0x50 ≤ 0x01 ∧ (0x01 : Nat) ≤ 0x55)
    ∧ ¬ (0xA0 ≤ 0x01 ∧ (0x01 : Nat) ≤ 0xA4)
    ∧ (0x01 : Nat) ≠ 0 :=
  ⟨rfl, by decide, by decide, by decide⟩

/-- Witness for C3 (amended): concrete instances of the quantified parts. -/
theorem checkGate_spec_witness :
    checkGate false [0x52] = .ok ()
    ∧ checkGate true ([0x52] : List Nat)
        = (if h : (0x52 : Nat) ≠ 0 ∧ (retCodeDescr 0x52).isSome then
            Except.error (PyErr.checkErr 0x52 ((retCodeDescr 0x52).get h.2))
          else Except.ok ())
    ∧ (((0x52 : Nat) ≠ 0 ∧ (retCodeDescr 0x52).isSome)
        ↔ ((0x52 : Nat) = 0x01 ∨ (0x50 ≤ 0x52 ∧ (0x52 : Nat) ≤ 0x55)
            ∨ (0xA0 ≤ 0x52 ∧ (0x52 : Nat) ≤ 0xA4))) :=
  ⟨checkGate_spec.1 [0x52], checkGate_spec.2.2.1 0x52 [], checkGate_spec.2.2.2.1 0x52⟩

/- ### Tag reports (PURReader.parseTagreports) -/

/-- One entry produced by parseTagreports: the dict key (tag id rendered as
an uppercase hex string, Python format {:02X}) with the reported RSSI
values. -/
structure TagEntry where
  tagID : String
  rssiI : Nat
  rssiQ : Nat
deriving DecidableEq, Repr

/-- One uppercase hex digit, as in Python format {:02X}. -/
def hexDigit (n : Nat) : Char :=
  if n < 10 then Char.ofNat (48 + n) else Char.ofNat (55 + n)

/-- Python format {:02X} applied to one byte (values < 256). -/
def hexPair (b : Nat) : String :=
  String.mk [hexDigit (b / 16), hexDigit (b % 16)]

/-- The hex rendering join of {:02X}-formatted bytes used for tag ids. -/
def hexStr (bytes : List Nat) : String :=
  String.join (bytes.map hexPair)

/-- Python bytes.find for a single byte value: index of the first
occurrence, or none where Python returns -1. -/
def findByte (b : Nat) : List Nat → Option Nat
  | [] => none
  | a :: l => if a = b then some 0 else (findByte b l).map (· + 1)

/-- The inner loop of PURReader.parseTagreports: parses `count` tag
structures from the bytes after the count header.  A -1 from
tagsBytes.find(0x01) leaves the buffer unchanged in the source (slice from
-1+1 = 0); indexing an empty buffer models the IndexError, and
struct.unpack('!BB', ...) on fewer than 2 bytes models the struct.error. -/
def parseTagStructs : Nat → List Nat → Except PyErr (List TagEntry)
  | 0, _ => .ok []
  | n + 1, tagsBytes =>
    let afterMarker :=
      match findByte 0x01 tagsBytes with
      | some i => tagsBytes.drop (i + 1)
      | none => tagsBytes
    match afterMarker with
    | [] => .error .indexErr
    | idLen :: r1 =>
      let tagID := hexStr (r1.take idLen)
      match r1.drop idLen with
      | [] => .error .indexErr
      | m :: r3 =>
        if m ≠ 0x02 then .error (.syntaxErr "Wrong RSSI start")
        else
          match r3 with
          | rssiQ :: rssiI :: r4 =>
            match parseTagStructs n r4 with
            | .ok entries => .ok (⟨tagID, rssiI, rssiQ⟩ :: entries)
            | .error e => .error e
          | _ => .error .structErr

/-- The message loop of PURReader.parseTagreports: carries the running
collected count, the declared total (re-assigned on every iteration, so the
last message wins), and the accumulated tag list.
struct.unpack('!BB', pkg.pldBytes[1:3]) needs a payload of at least 3
bytes, else struct.error. -/
def tagreportFold : List (List Nat) → Nat → Nat → List TagEntry →
    Except PyErr (Nat × Nat × List TagEntry)
  | [], collected, idCount, tags => .ok (collected, idCount, tags)
  | pld :: rest, collected, _, tags =>
    match pld with
    | _ :: idCount :: pkgIdCount :: tagsBytes =>
      match parseTagStructs pkgIdCount tagsBytes with
      | .ok entries => tagreportFold rest (collected + pkgIdCount) idCount (tags ++ entries)
      | .error e => .error e
    | _ => .error .structErr

/-- PURReader.parseTagreports on the payloads of the received packets:
parses each packet's tag structures, then raises the IOError naming the
collected and expected counts when the running per-packet sum differs from
the total declared by the last processed packet. -/
def parseTagreports (pldList : List (List Nat)) : Except PyErr (List TagEntry) :=
  match tagreportFold pldList 0 0 [] with
  | .error e => .error e
  | .ok (collected, idCount, tags) =>
    if collected ≠ idCount then .error (.ioCountErr collected idCount)
    else .ok tags

/-- Abstract well-formed tag structure: id bytes and the two RSSI bytes. -/
structure Tag where
  id : List Nat
  rssiQ : Nat
  rssiI : Nat
deriving Repr

/-- Wire bytes of a list of tag structures: marker 0x01, id length byte, id
bytes, marker 0x02, RSSI Q byte, RSSI I byte, for each tag in turn. -/
def mkTagBytes : List Tag → List Nat
  | [] => []
  | t :: ts => 0x01 :: t.id.length :: (t.id ++ (0x02 :: t.rssiQ :: t.rssiI :: mkTagBytes ts))

/-- One abstract inventory message: return code, declared total tag count
and this-packet tag structures. -/
structure InvMsg where
  rc : Nat
  total : Nat
  tags : List Tag
deriving Repr

/-- The payload of an inventory message: return code, declared total,
this-packet tag count, then the tag structures. -/
def mkInvPayload (m : InvMsg) : List Nat :=
  m.rc :: m.total :: m.tags.length :: mkTagBytes m.tags

/-- The entry parseTagreports produces for one well-formed tag structure. -/
def tagEntryOf (t : Tag) : TagEntry :=
  ⟨hexStr t.id, t.rssiI, t.rssiQ⟩

/-- Byte-range well-formedness of a tag structure. -/
def wfTag (t : Tag) : Prop :=
  t.id.length ≤ 255 ∧ (∀ b ∈ t.id, b < 256) ∧ t.rssiQ < 256 ∧ t.rssiI < 256

/-- Byte-range well-formedness of an inventory message. -/
def wfInvMsg (m : InvMsg) : Prop :=
  m.rc < 256 ∧ m.total ≤ 255 ∧ m.tags.length ≤ 255 ∧ ∀ t ∈ m.tags, wfTag t

instance (t : Tag) : Decidable (wfTag t) := by
  unfold wfTag; infer_instance

instance (m : InvMsg) : Decidable (wfInvMsg m) := by
  unfold wfInvMsg; infer_instance

lemma parseTagStructs_mkTagBytes (ts : List Tag) :
    parseTagStructs ts.length (mkTagBytes ts) = .ok (ts.map tagEntryOf) := by
  induction ts with
  | nil => rfl
  | cons t ts ih =>
    simp only [List.length_cons, List.map_cons, mkTagBytes]
    simp only [parseTagStructs, findByte]
    simp [List.take_left, List.drop_left, ih, tagEntryOf]

lemma tagreportFold_mkInvPayload (msgs : List InvMsg) :
    ∀ (c ic : Nat) (acc : List TagEntry),
      tagreportFold (msgs.map mkInvPayload) c ic acc
        = .ok (c + (msgs.map (fun m => m.tags.length)).sum,
            msgs.foldl (fun _ m => m.total) ic,
            acc ++ (msgs.map (fun m => m.tags.map tagEntryOf)).join) := by
  induction msgs with
  | nil => intro c ic acc; simp [tagreportFold]
  | cons m ms ih =>
    intro c ic acc
    simp only [List.map_cons, mkInvPayload, tagreportFold, parseTagStructs_mkTagBytes]
    rw [ih]
    simp [Nat.add_assoc, List.append_assoc]

lemma foldl_total_getLastD (msgs : List InvMsg) :
    ∀ ic : Nat, msgs.foldl (fun _ m => m.total) ic = (msgs.map (fun m => m.total)).getLastD ic := by
  induction msgs with
  | nil => intro ic; rfl
  | cons m ms ih =>
    intro ic
    simp only [List.foldl_cons, List.map_cons, List.getLastD_cons]
    exact ih m.total

/-- C2 (amended): for every non-empty list of inventory messages whose tag
structures are well-formed, parseTagreports raises the incomplete-inventory
error carrying (collected, expected) exactly when the sum of the
this-packet-tag-count bytes over all messages differs from the
total-tag-count byte declared in the LAST message (the loop re-assigns the
expected total on each message); otherwise it returns one entry per decoded
tag structure, in input order. -/
theorem parseTagreports_accounting (msgs : List InvMsg)
    (hne : msgs ≠ []) (hwf : ∀ m ∈ msgs, wfInvMsg m) :
    parseTagreports (msgs.map mkInvPayload)
      = if (msgs.map (fun m => m.tags.length)).sum
            = (msgs.map (fun m => m.total)).getLastD 0 then
          .ok ((msgs.map (fun m => m.tags.map tagEntryOf)).join)
        else
          .error (.ioCountErr ((msgs.map (fun m => m.tags.length)).sum)
            ((msgs.map (fun m => m.total)).getLastD 0)) := by
  unfold parseTagreports
  rw [tagreportFold_mkInvPayload msgs 0 0 [], foldl_total_getLastD msgs 0]
  simp only [List.nil_append, Nat.zero_add]
  by_cases heq : (msgs.map (fun m => m.tags.length)).sum
      = (msgs.map (fun m => m.total)).getLastD 0
  · rw [if_pos heq]
    exact if_neg (fun hn => hn heq)
  · rw [if_neg heq]
    exact if_pos heq

/-- Counterexample for C2 as stated: two well-formed messages, the first
declaring total 5 and the second total 2, each carrying one tag structure;
the collected count 2 differs from the FIRST declared total 5, yet decoding
succeeds with the two entries because the code compares against the LAST
declared total. -/
theorem parseTagreports_first_total_counterexample :
    parseTagreports [[0x00, 5, 1, 0x01, 1, 0xAA, 0x02, 10, 20],
        [0x00, 2, 1, 0x01, 1, 0xBB, 0x02, 30, 40]]
      = .ok [⟨"AA", 20, 10⟩, ⟨"BB", 40, 30⟩]
    ∧ (1 + 1 : Nat) ≠ 5 :=
  ⟨by decide, by decide⟩

/-- Witness for C2 (amended) at one message with total 2 and two tag
structures, and at two messages whose last declares total 3 while only 2
structures are supplied. -/
theorem parseTagreports_accounting_witness :
    parseTagreports (([⟨0x00, 2, [⟨[0xAA], 10, 20⟩, ⟨[0xBB], 30, 40⟩]⟩] : List InvMsg).map
        mkInvPayload)
      = .ok [⟨"AA", 20, 10⟩, ⟨"BB", 40, 30⟩]
    ∧ parseTagreports (([⟨0x00, 3, [⟨[0xAA], 10, 20⟩]⟩, ⟨0x00, 3, [⟨[0xBB], 30, 40⟩]⟩] :
          List InvMsg).map mkInvPayload)
      = .error (.ioCountErr 2 3) :=
  ⟨(parseTagreports_accounting [⟨0x00, 2, [⟨[0xAA], 10, 20⟩, ⟨[0xBB], 30, 40⟩]⟩]
      (by simp) (by decide)).trans (by decide),
   (parseTagreports_accounting [⟨0x00, 3, [⟨[0xAA], 10, 20⟩]⟩, ⟨0x00, 3, [⟨[0xBB], 30, 40⟩]⟩]
      (by simp) (by decide)).trans (by decide)⟩

/- ### Stream splitting (PURReader.send, lines 44-57) -/

/-- The first 6 bytes of the sent message, pkg.msgBytes[:6]: start marker,
command-section marker and the two command bytes.  Used by send as the
delimiter for splitting the response stream. -/
def cmdEcho (c1 c2 : Nat) : List Nat := [0x52, 0x46, 0x45, 0x01, c1, c2]

/-- Index of the first occurrence of the (non-empty) byte sequence `sep` in
a byte string, as computed by Python bytes.find; none where Python gives
-1. -/
def findSub (sep : List Nat) : List Nat → Option Nat
  | [] => none
  | a :: l => if sep.isPrefixOf (a :: l) then some 0 else (findSub sep l).map (· + 1)

/-- Python bytes.split for a non-empty separator, fuelled: chunks between
consecutive non-overlapping occurrences of `sep`, scanning left to right. -/
def splitPyAux (sep : List Nat) : Nat → List Nat → List (List Nat)
  | 0, l => [l]
  | fuel + 1, l =>
    match findSub sep l with
    | none => [l]
    | some i => l.take i :: splitPyAux sep fuel (l.drop (i + sep.length))

/-- Python bytes.split(sep) for a non-empty separator: the fuel
`l.length + 1` suffices because every found occurrence consumes at least
one byte. -/
def splitPy (sep l : List Nat) : List (List Nat) :=
  splitPyAux sep (l.length + 1) l

/-- A buffer consisting of concatenated frames, each beginning with the
separator: the shape of the response stream in the stream-splitting claim. -/
def joinFrames (sep : List Nat) (rests : List (List Nat)) : List Nat :=
  (rests.map (fun r => sep ++ r)).join

/-- The start offsets of the frames of `joinFrames`. -/
def frameStarts (sepLen : Nat) : List (List Nat) → List Nat
  | [] => []
  | r :: rs => 0 :: (frameStarts sepLen rs).map (· + (sepLen + r.length))

/-- The receive path of PURReader.send (with check=False): split the
response buffer on the 6-byte command echo of the sent message, drop the
prefix before the first occurrence, re-attach the echo to each part, parse
each part, and return the single packet when exactly one was produced,
otherwise the list in order of appearance. -/
def recvPackets (c1 c2 : Nat) (respBytes : List Nat) :
    Except PyErr (Sum (List Nat × List Nat) (List (List Nat × List Nat))) := do
  let pkgs ← ((splitPy (cmdEcho c1 c2) respBytes).drop 1).mapM
    (fun part => parseMsg (cmdEcho c1 c2 ++ part))
  match pkgs with
  | [p] => return Sum.inl p
  | _ => return Sum.inr pkgs

/- ### isPrefixOf and findSub lemmas -/

lemma isPrefixOf_append_self (s t : List Nat) : s.isPrefixOf (s ++ t) = true := by
  induction s with
  | nil => simp [List.isPrefixOf]
  | cons a s ih => simp [List.isPrefixOf, ih]

lemma prefixOf_drop_lt (sep l : List Nat) (k : Nat) (hsep : sep ≠ [])
    (h : sep.isPrefixOf (l.drop k) = true) : k < l.length := by
  by_contra hk
  push_neg at hk
  rw [List.drop_eq_nil_of_le hk] at h
  cases sep with
  | nil => exact hsep rfl
  | cons a s => cases h

lemma findSub_isPrefixOf (sep : List Nat) :
    ∀ (l : List Nat) (i : Nat), findSub sep l = some i →
      sep.isPrefixOf (l.drop i) = true := by
  intro l
  induction l with
  | nil => intro i h; cases h
  | cons a l ih =>
    intro i h
    simp only [findSub] at h
    by_cases hp : sep.isPrefixOf (a :: l) = true
    · rw [if_pos hp] at h
      obtain rfl : (0 : Nat) = i := Option.some.inj h
      simpa using hp
    · rw [if_neg hp] at h
      cases hfs : findSub sep l with
      | none => rw [hfs] at h; cases h
      | some j =>
        rw [hfs] at h
        obtain rfl : j + 1 = i := Option.some.inj (by simpa using h)
        simpa [List.drop_succ_cons] using ih j hfs

lemma findSub_min (sep : List Nat) (hsep : sep ≠ []) :
    ∀ (l : List Nat) (i : Nat),
      sep.isPrefixOf (l.drop i) = true →
      (∀ j, j < i → sep.isPrefixOf (l.drop j) = false) →
      findSub sep l = some i := by
  intro l
  induction l with
  | nil =>
    intro i hocc _
    exfalso
    rw [List.drop_nil] at hocc
    cases sep with
    | nil => exact hsep rfl
    | cons a s => cases hocc
  | cons a l ih =>
    intro i hocc hmin
    cases i with
    | zero =>
      rw [List.drop_zero] at hocc
      simp only [findSub]
      rw [if_pos hocc]
    | succ i =>
      have h0 : sep.isPrefixOf (a :: l) = false := by
        simpa using hmin 0 (Nat.succ_pos i)
      simp only [findSub]
      rw [if_neg (by simp [h0]),
        ih i (by simpa [List.drop_succ_cons] using hocc)
          (fun j hj => by simpa [List.drop_succ_cons] using hmin (j + 1) (by omega))]
      rfl

lemma splitPyAux_eq_none (sep l : List Nat) (f : Nat) (h : findSub sep l = none) :
    splitPyAux sep (f + 1) l = [l] := by
  simp [splitPyAux, h]

lemma splitPyAux_eq_some (sep l : List Nat) (f i : Nat) (h : findSub sep l = some i) :
    splitPyAux sep (f + 1) l = l.take i :: splitPyAux sep f (l.drop (i + sep.length)) := by
  simp [splitPyAux, h]

lemma findSub_append_self (sep x : List Nat) (hsep : sep ≠ []) :
    findSub sep (sep ++ x) = some 0 := by
  cases sep with
  | nil => exact absurd rfl hsep
  | cons a s =>
    have h2 : (a :: s).isPrefixOf (a :: (s ++ x)) = true := isPrefixOf_append_self (a :: s) x
    simp [findSub, h2]

lemma drop_append_plus (l₁ l₂ : List Nat) (n : Nat) :
    (l₁ ++ l₂).drop (l₁.length + n) = l₂.drop n := by
  induction l₁ with
  | nil => simp
  | cons a l ih => simpa [Nat.succ_add] using ih

lemma joinFrames_cons (sep r : List Nat) (rs : List (List Nat)) :
    joinFrames sep (r :: rs) = sep ++ (r ++ joinFrames sep rs) := by
  simp [joinFrames, List.append_assoc]

lemma splitPyAux_frames (sep : List Nat) (hsep : sep ≠ []) :
    ∀ (rs : List (List Nat)) (r : List Nat) (f : Nat),
      (r ++ joinFrames sep rs).length < f →
      (∀ k, sep.isPrefixOf ((r ++ joinFrames sep rs).drop k) = true →
        ∃ s ∈ frameStarts sep.length rs, k = r.length + s) →
      splitPyAux sep f (r ++ joinFrames sep rs) = r :: rs := by
  intro rs
  induction rs with
  | nil =>
    intro r f hf H
    obtain ⟨g, rfl⟩ : ∃ g, f = g + 1 := ⟨f - 1, by omega⟩
    have hnone : findSub sep (r ++ joinFrames sep []) = none := by
      cases hfind : findSub sep (r ++ joinFrames sep []) with
      | none => rfl
      | some i =>
        exfalso
        obtain ⟨s, hs, _⟩ := H i (findSub_isPrefixOf sep _ i hfind)
        simp [frameStarts] at hs
    rw [splitPyAux_eq_none _ _ g hnone]
    simp [joinFrames]
  | cons r2 rs ih =>
    intro r f hf H
    rw [joinFrames_cons] at hf H ⊢
    obtain ⟨g, rfl⟩ : ∃ g, f = g + 1 := ⟨f - 1, by omega⟩
    have hocc0 : sep.isPrefixOf
        ((r ++ (sep ++ (r2 ++ joinFrames sep rs))).drop r.length) = true := by
      rw [List.drop_left]
      exact isPrefixOf_append_self sep _
    have hmin : ∀ j, j < r.length →
        sep.isPrefixOf ((r ++ (sep ++ (r2 ++ joinFrames sep rs))).drop j) = false := by
      intro j hj
      cases hx : sep.isPrefixOf ((r ++ (sep ++ (r2 ++ joinFrames sep rs))).drop j) with
      | false => rfl
      | true =>
        exfalso
        obtain ⟨s, _, hks⟩ := H j hx
        omega
    have hfind := findSub_min sep hsep _ r.length hocc0 hmin
    rw [splitPyAux_eq_some _ _ g r.length hfind, List.take_left]
    have hdrop : (r ++ (sep ++ (r2 ++ joinFrames sep rs))).drop (r.length + sep.length)
        = r2 ++ joinFrames sep rs := by
      rw [drop_append_plus, List.drop_left]
    rw [hdrop, ih r2 g ?hlen ?hocc]
    case hlen =>
      have h1 : 0 < sep.length := List.length_pos.mpr hsep
      simp only [List.length_append] at hf ⊢
      omega
    case hocc =>
      intro k hk
      have hkk : sep.isPrefixOf
          ((r ++ (sep ++ (r2 ++ joinFrames sep rs))).drop (r.length + (sep.length + k)))
            = true := by
        rw [drop_append_plus]
        rw [show (sep ++ (r2 ++ joinFrames sep rs)).drop (sep.length + k)
            = (r2 ++ joinFrames sep rs).drop k from drop_append_plus sep _ k]
        exact hk
      obtain ⟨s, hs, hks⟩ := H (r.length + (sep.length + k)) hkk
      have h1 : 0 < sep.length := List.length_pos.mpr hsep
      simp only [frameStarts, List.mem_cons, List.mem_map] at hs
      rcases hs with rfl | ⟨t, ht, rfl⟩
      · omega
      · exact ⟨t, ht, by omega⟩

/-- The return-shape selection of PURReader.send (lines 54-57): the packet
itself when exactly one was produced, otherwise the list of packets. -/
def pickResult (pkgs : List (List Nat × List Nat)) :
    Sum (List Nat × List Nat) (List (List Nat × List Nat)) :=
  match pkgs with
  | [p] => Sum.inl p
  | _ => Sum.inr pkgs

/-- C7: Stream splitting.  For a response buffer that is the concatenation
of n >= 1 valid frames each beginning with the sent message's 6-byte
command echo, where that echo occurs nowhere else in the buffer, send's
splitting produces exactly the n decoded messages in their order of
appearance, returning the single message itself when n = 1 and the ordered
sequence when n > 1. -/
theorem recvPackets_stream_split (c1 c2 : Nat) (rests : List (List Nat))
    (msgs : List (List Nat × List Nat)) (hne : rests ≠ [])
    (hocc : ∀ k, k < (joinFrames (cmdEcho c1 c2) rests).length →
      (cmdEcho c1 c2).isPrefixOf ((joinFrames (cmdEcho c1 c2) rests).drop k) = true →
        k ∈ frameStarts (cmdEcho c1 c2).length rests)
    (hparse : rests.mapM (fun r => parseMsg (cmdEcho c1 c2 ++ r)) = .ok msgs) :
    recvPackets c1 c2 (joinFrames (cmdEcho c1 c2) rests)
      = .ok (pickResult msgs) := by
  have hsep : cmdEcho c1 c2 ≠ [] := by simp [cmdEcho]
  have hseplen : 0 < (cmdEcho c1 c2).length := List.length_pos.mpr hsep
  obtain ⟨r1, rs, rfl⟩ : ∃ r1 rs, rests = r1 :: rs := by
    cases rests with
    | nil => exact absurd rfl hne
    | cons a b => exact ⟨a, b, rfl⟩
  have hsplit : splitPy (cmdEcho c1 c2) (joinFrames (cmdEcho c1 c2) (r1 :: rs))
      = [] :: r1 :: rs := by
    unfold splitPy
    rw [joinFrames_cons]
    rw [splitPyAux_eq_some _ _ _ 0 (findSub_append_self _ _ hsep), List.take_zero]
    rw [show (0 : Nat) + (cmdEcho c1 c2).length = (cmdEcho c1 c2).length + 0 by omega,
      drop_append_plus, List.drop_zero]
    rw [splitPyAux_frames (cmdEcho c1 c2) hsep rs r1
      ((cmdEcho c1 c2 ++ (r1 ++ joinFrames (cmdEcho c1 c2) rs)).length)
      (by simp only [List.length_append]; omega) ?hocc2]
    case hocc2 =>
      intro k hk
      have hkb : k < (r1 ++ joinFrames (cmdEcho c1 c2) rs).length :=
        prefixOf_drop_lt _ _ k hsep hk
      simp only [List.length_append] at hkb
      have hkk : (cmdEcho c1 c2).isPrefixOf
          ((joinFrames (cmdEcho c1 c2) (r1 :: rs)).drop ((cmdEcho c1 c2).length + k))
            = true := by
        rw [joinFrames_cons, drop_append_plus]
        exact hk
      have hmem := hocc ((cmdEcho c1 c2).length + k)
        (by rw [joinFrames_cons]; simp only [List.length_append]; omega) hkk
      simp only [frameStarts, List.mem_cons, List.mem_map] at hmem
      rcases hmem with hmem | ⟨t, ht, hmem⟩
      · omega
      · exact ⟨t, ht, by omega⟩
  unfold recvPackets
  rw [hsplit]
  rw [show (([] : List Nat) :: r1 :: rs).drop 1 = r1 :: rs from rfl]
  rw [hparse]
  cases msgs with
  | nil => rfl
  | cons m ms =>
    cases ms with
    | nil => rfl
    | cons m2 ms2 => rfl

/-- Witness for C7: two identical valid empty-payload frames for command
50 01 concatenated; splitting yields the two decoded messages in order. -/
theorem recvPackets_stream_split_witness :
    recvPackets 0x50 0x01 (joinFrames (cmdEcho 0x50 0x01)
        [[0x02, 0x00, 0x04, 0x07], [0x02, 0x00, 0x04, 0x07]])
      = .ok (Sum.inr [([0x50, 0x01], []), ([0x50, 0x01], [])]) :=
  recvPackets_stream_split 0x50 0x01 [[0x02, 0x00, 0x04, 0x07], [0x02, 0x00, 0x04, 0x07]]
    [([0x50, 0x01], []), ([0x50, 0x01], [])] (by simp) (by decide) rfl
